import Mathlib

/-!
Shallow embedding of `sap/cli/checkout.py` (ABAP object checkout orchestration)
and proofs of the specification claims about it.

The filesystem and the error stream are modelled explicitly: a `World` carries
the set of existing directories, the files written so far (an association list
where the most recent write of a path comes first), and the lines printed to
the error stream.  Remote fetches are modelled by a `Connection` record of
functions returning `Except Err`; a Python exception corresponds to an
`Err` value threaded through the computation, and `try/except KeyError`
corresponds to catching exactly the `Err.keyError` constructor.
-/

namespace Sapcli

/-- Errors: `keyError` models Python's `KeyError` (raised by a failed dict
subscript), `fetchFailure` models any exception escaping the remote protocol
client, `fsFailure` models a filesystem error such as `os.makedirs` hitting an
existing directory. -/
inductive Err where
  | keyError : String → Err
  | fetchFailure : String → Err
  | fsFailure : String → Err
deriving DecidableEq

/-- Is this error a Python `KeyError`?  Only those are caught by the handler in
`checkout_objects`. -/
def Err.isKeyError : Err → Bool
  | Err.keyError _ => true
  | _ => false

/-- The `VSEOCLASS` ABAP structure populated by `build_class_abap_attributes`
(imported from `sap.platform.abap.ddic` in the source). -/
structure VSEOCLASS where
  CLSNAME : String
  VERSION : String
  LANGU : String
  DESCRIPT : String
  STATE : String
  CLSCCINCL : String
  FIXPT : String
  UNICODE : String
deriving DecidableEq

/-- Modelled from the spec: `DOT_ABAP_GIT` (from `sap.platform.abap.abapgit`,
not under `src/`) is the repo-metadata record; per §3 RepoMetadata it records
the configured starting folder. -/
structure DOT_ABAP_GIT where
  STARTING_FOLDER : String
deriving DecidableEq

/-- Modelled from the spec: `DOT_ABAP_GIT.for_new_repo` builds the metadata
record for a new repository from the given starting-folder value. -/
def DOT_ABAP_GIT.for_new_repo (starting_folder_value : String) : DOT_ABAP_GIT :=
  { STARTING_FOLDER := starting_folder_value }

/-- Contents of a written file.  Plain source text is written directly; XML
files are produced by the external serialization facility, which we model by
storing the serialized record itself. -/
inductive FileContent where
  | text : String → FileContent
  | vseoclassXml : VSEOCLASS → FileContent
  | abapgitXml : DOT_ABAP_GIT → FileContent
deriving DecidableEq

/-- The filesystem: which directories exist and which files have been written.
`files` keeps the most recent write of each path first; `writeFile` removes any
earlier entry for the same path (modelling `open(.., 'w')` truncation). -/
structure FS where
  dirs : List String
  files : List (String × FileContent)
deriving DecidableEq

/-- Models `os.path.isdir`. -/
def FS.isdir (fs : FS) (d : String) : Bool := fs.dirs.contains d

/-- Models `os.makedirs` (without `exist_ok`): creating a directory that
already exists raises `FileExistsError`. -/
def FS.makedirs (fs : FS) (d : String) : Except Err FS :=
  if fs.dirs.contains d then Except.error (Err.fsFailure d)
  else Except.ok { fs with dirs := d :: fs.dirs }

/-- Models `open(path, 'w')` followed by writing `c`: creates the file or
overwrites an existing file of the same path. -/
def FS.writeFile (fs : FS) (p : String) (c : FileContent) : FS :=
  { fs with files := (p, c) :: fs.files.filter (fun e => e.1 ≠ p) }

/-- Reads the current content of a file, if present. -/
def FS.lookupFile (fs : FS) (p : String) : Option FileContent :=
  fs.files.lookup p

/-- The full observable state: the filesystem plus the lines printed to the
error stream (`sys.stderr`), in print order. -/
structure World where
  fs : FS
  stderrLines : List String
deriving DecidableEq

/-- Does the path begin with the path separator?  Models `str.startswith('/')`
as used by `os.path.join` on posix. -/
def startsWithSep (p : String) : Bool := p.data.head? = some '/'

/-- Does the path end with the path separator?  Models `str.endswith('/')`. -/
def endsWithSep (p : String) : Bool := p.data.getLast? = some '/'

/-- Models posix `os.path.join` for two components. -/
def os_path_join (a b : String) : String :=
  if startsWithSep b then b
  else if a = "" then b
  else if endsWithSep a then a ++ b
  else a ++ "/" ++ b

/-- Models `os.path.join(*segments)` for a non-empty argument list. -/
def os_path_join_list : List String → String
  | [] => ""
  | s :: rest => rest.foldl os_path_join s

/-- Models `os.path.isabs`. -/
def os_path_isabs (p : String) : Bool := startsWithSep p

/-- Models `os.path.abspath` relative to the current working directory `cwd`
(without `normpath` simplification, which never fires on the paths built
here). -/
def os_path_abspath (cwd p : String) : String :=
  if os_path_isabs p then p else os_path_join cwd p

/-- Source function `build_filename`: lower-cases the concatenation
`object_name ++ typsfx ++ "." ++ fileext` and prepends `destdir` when given. -/
def build_filename (object_name typsfx fileext : String) (destdir : Option String) : String :=
  let filename := (object_name ++ typsfx ++ "." ++ fileext).toLower
  match destdir with
  | none => filename
  | some d => os_path_join d filename

/-- Source function `dump_attributes_to_file`: serializes the attribute record
to `<name><typsfx>.xml` via the external XML writer. -/
def dump_attributes_to_file (object_name : String) (abap_attributes : VSEOCLASS)
    (typsfx : String) (ag_serializer : String) (destdir : Option String)
    (w : World) : World × Option Err :=
  let filename := build_filename object_name typsfx "xml" destdir
  ({ w with fs := w.fs.writeFile filename (FileContent.vseoclassXml abap_attributes) }, none)

/-- Source function `download_abap_source`.  `source_text` stands for the
(lazily fetched) `source_object.text`: `open(filename, 'w')` truncates the
file before the fetch happens, so a failing fetch leaves an empty file behind
and the error escapes. -/
def download_abap_source (object_name : String) (source_text : Except Err String)
    (typsfx : String) (destdir : Option String) (w : World) : World × Option Err :=
  let filename := build_filename object_name typsfx "abap" destdir
  match source_text with
  | Except.ok t => ({ w with fs := w.fs.writeFile filename (FileContent.text t) }, none)
  | Except.error e => ({ w with fs := w.fs.writeFile filename (FileContent.text "") }, some e)

/-- The data of a fetched `sap.adt.Class`: descriptive attributes plus the four
source bodies (each body access is a separate fetch that can fail). -/
structure ClassData where
  name : String
  active : String
  master_language : String
  description : String
  modeled : Bool
  fix_point_arithmetic : Bool
  text : Except Err String
  definitions : Except Err String
  implementations : Except Err String
  test_classes : Except Err String

/-- The remote connection: per object kind, a fetch operation.
`fetchClass` models `sap.adt.Class(..).fetch()`, `fetchProgramText` models
`sap.adt.Program(..).text`, `fetchInterfaceText` models
`sap.adt.Interface(..).text`. -/
structure Connection where
  fetchClass : String → Except Err ClassData
  fetchProgramText : String → Except Err String
  fetchInterfaceText : String → Except Err String

/-- Modelled from the spec: `iso_code_to_sap_code` (from
`sap.platform.language`, not under `src/`) is the external language-code
lookup collaborator of §6; it maps an ISO language code to the vendor-specific
single-character code.  Its failure mode is unspecified, so it is modelled
total. -/
def iso_code_to_sap_code (iso : String) : String :=
  if iso = "EN" then "E" else if iso = "DE" then "D" else iso

/-- Source function `build_class_abap_attributes`. -/
def build_class_abap_attributes (clas : ClassData) : VSEOCLASS :=
  { CLSNAME := clas.name
    VERSION := if clas.active = "active" then "1" else "0"
    LANGU := iso_code_to_sap_code clas.master_language
    DESCRIPT := clas.description
    STATE := if clas.modeled then "0" else "1"
    CLSCCINCL := "X"
    FIXPT := if clas.fix_point_arithmetic then "X" else " "
    UNICODE := "X" }

/-- Sequencing of effectful steps: a raised exception skips the rest. -/
def seqRun (r : World × Option Err) (k : World → World × Option Err) : World × Option Err :=
  match r with
  | (w, none) => k w
  | (w, some e) => (w, some e)

/-- Source function `checkout_class`: fetch the class, write the four source
files, then the XML attribute file. -/
def checkout_class (connection : Connection) (name : String) (destdir : Option String)
    (w : World) : World × Option Err :=
  match connection.fetchClass name with
  | Except.error e => (w, some e)
  | Except.ok clas =>
    seqRun (download_abap_source name clas.text ".clas" destdir w) (fun w1 =>
    seqRun (download_abap_source name clas.definitions ".clas.locals_def" destdir w1) (fun w2 =>
    seqRun (download_abap_source name clas.implementations ".clas.locals_imp" destdir w2) (fun w3 =>
    seqRun (download_abap_source name clas.test_classes ".clas.testclasses" destdir w3) (fun w4 =>
      dump_attributes_to_file name (build_class_abap_attributes clas) ".clas"
        "LCL_OBJECT_CLAS" destdir w4))))

/-- Source function `checkout_program`. -/
def checkout_program (connection : Connection) (name : String) (destdir : Option String)
    (w : World) : World × Option Err :=
  download_abap_source name (connection.fetchProgramText name) ".prog" destdir w

/-- Source function `checkout_interface`. -/
def checkout_interface (connection : Connection) (name : String) (destdir : Option String)
    (w : World) : World × Option Err :=
  download_abap_source name (connection.fetchInterfaceText name) ".intf" destdir w

/-- An object reference yielded by package browsing: `obj.typ` and `obj.name`. -/
structure ObjectRef where
  typ : String
  name : String
deriving DecidableEq

/-- The type of an exporter entry in the dispatch table. -/
abbrev Exporter := Connection → String → Option String → World → World × Option Err

/-- The `checkouters` dispatch dict from `checkout_objects` (defined locally in
the source function; lifted to the top level here unchanged). -/
def checkouters : List (String × Exporter) :=
  [("PROG/P", checkout_program), ("CLAS/OC", checkout_class), ("INTF/OI", checkout_interface)]

/-- The diagnostic line printed for an object without an exporter. -/
def unsupported_diag (obj : ObjectRef) : String :=
  "Unsupported object: " ++ obj.typ ++ " " ++ obj.name

/-- The `for obj in objects` loop of `checkout_objects`: dict lookup, call the
exporter, catch `KeyError` (and only `KeyError`) by printing the diagnostic
line to stderr and continuing. -/
def checkout_loop (connection : Connection) (objects : List ObjectRef) (destdir : String)
    (w : World) : World × Option Err :=
  match objects with
  | [] => (w, none)
  | obj :: rest =>
    match checkouters.lookup obj.typ with
    | none =>
      checkout_loop connection rest destdir
        { w with stderrLines := w.stderrLines ++ [unsupported_diag obj] }
    | some exporter =>
      match exporter connection obj.name (some destdir) w with
      | (w1, none) => checkout_loop connection rest destdir w1
      | (w1, some (Err.keyError _)) =>
        checkout_loop connection rest destdir
          { w1 with stderrLines := w1.stderrLines ++ [unsupported_diag obj] }
      | (w1, some e) => (w1, some e)

/-- Source function `checkout_objects`: create the destination directory when
it does not exist, then run the object loop. -/
def checkout_objects (connection : Connection) (objects : List ObjectRef) (destdir : String)
    (w : World) : World × Option Err :=
  if w.fs.isdir destdir then checkout_loop connection objects destdir w
  else
    match w.fs.makedirs destdir with
    | Except.error e => (w, some e)
    | Except.ok fs1 => checkout_loop connection objects destdir { w with fs := fs1 }

/-- The parsed CLI arguments consumed by the package checkout command. -/
structure Args where
  name : String
  directory : Option String
  starting_folder : String
  recursive : Bool

/-- The directory-defaulting of `make_repo_dir_for_package`: `args.directory`
unless it is falsy (`None` or empty), in which case the package name is
used. -/
def repo_dir_arg (args : Args) : String :=
  match args.directory with
  | none => args.name
  | some d => if d = "" then args.name else d

/-- Source function `make_repo_dir_for_package`: default the directory to the
package name, resolve it, create it when missing, and write `.abapgit.xml`
with the starting folder wrapped in path separators.  Returns the resolved
directory alongside the run outcome. -/
def make_repo_dir_for_package (cwd : String) (args : Args) (w : World) :
    (World × Option Err) × String :=
  let repo_dir := os_path_abspath cwd (repo_dir_arg args)
  let step : World × Option Err :=
    if w.fs.isdir repo_dir then (w, none)
    else match w.fs.makedirs repo_dir with
      | Except.error e => (w, some e)
      | Except.ok fs1 => ({ w with fs := fs1 }, none)
  match step with
  | (w1, some e) => ((w1, some e), repo_dir)
  | (w1, none) =>
    let dot_abapgit := DOT_ABAP_GIT.for_new_repo ("/" ++ args.starting_folder ++ "/")
    let repo_file := os_path_join repo_dir ".abapgit.xml"
    ((({ w1 with fs := w1.fs.writeFile repo_file (FileContent.abapgitXml dot_abapgit) }), none),
      repo_dir)

/-- One element yielded by `sap.adt.package.walk`: the package-name hierarchy
from the traversal root, the direct sub-package names, and the directly
contained objects. -/
structure PackageVisit where
  hier : List String
  subpackages : List String
  objects : List ObjectRef

/-- The destination-directory computation of the loop body of `package`
(source lines 178-184). -/
def package_destdir (cwd source_code_dir : String) (hier : List String) : String :=
  let destdir := os_path_abspath cwd source_code_dir
  if hier.length = 1 then os_path_join destdir (hier.headI.toLower)
  else if hier.length > 1 then
    let hier_path := os_path_join_list hier
    os_path_join destdir hier_path.toLower
  else destdir

/-- The `for package_name_hier, _, objects in walk(..)` loop of `package`:
checkout the objects of each visit into its destination directory and stop
after the first visit unless `--recursive` was given. -/
def package_loop (cwd : String) (connection : Connection) (recursive : Bool)
    (source_code_dir : String) (visits : List PackageVisit) (w : World) : World × Option Err :=
  match visits with
  | [] => (w, none)
  | v :: rest =>
    let destdir := package_destdir cwd source_code_dir v.hier
    match checkout_objects connection v.objects destdir w with
    | (w1, some e) => (w1, some e)
    | (w1, none) =>
      if recursive then package_loop cwd connection recursive source_code_dir rest w1
      else (w1, none)

/-- The `package` command from the source.  The lazy sequence produced by
`sap.adt.package.walk` enters as the `visits` list. -/
def package (cwd : String) (connection : Connection) (args : Args)
    (visits : List PackageVisit) (w : World) : World × Option Err :=
  match make_repo_dir_for_package cwd args w with
  | ((w1, some e), _) => (w1, some e)
  | ((w1, none), repo_dir) =>
    let source_code_dir := os_path_join repo_dir args.starting_folder
    package_loop cwd connection args.recursive source_code_dir visits w1

/-- A package tree as seen on the remote system: name, directly contained
objects, direct sub-packages. -/
inductive PkgTree where
  | node : String → List ObjectRef → List PkgTree → PkgTree

/-- The name of the root package of a tree. -/
def PkgTree.rootName : PkgTree → String
  | PkgTree.node n _ _ => n

/-- The objects directly contained in the root package of a tree. -/
def PkgTree.rootObjects : PkgTree → List ObjectRef
  | PkgTree.node _ objs _ => objs

/-- The names of the direct sub-packages of the root of a tree. -/
def PkgTree.subNames : PkgTree → List String
  | PkgTree.node _ _ subs => subs.map PkgTree.rootName

mutual

/-- Modelled from the spec: `sap.adt.package.walk` (in `sap.adt.package`, not
under `src/`) yields one `PackageVisit` per package, depth-first pre-order,
the root first; the hierarchy path accumulates the package names from the
root, which contributes exactly one segment (§3, §4.3). -/
def walkFrom (pre : List String) : PkgTree → List PackageVisit
  | PkgTree.node name objs subs =>
    { hier := pre ++ [name], subpackages := subs.map PkgTree.rootName, objects := objs } ::
      walkList (pre ++ [name]) subs

/-- Pre-order traversal of a list of sibling sub-trees, left to right. -/
def walkList (pre : List String) : List PkgTree → List PackageVisit
  | [] => []
  | t :: ts => walkFrom pre t ++ walkList pre ts

end

/-- Modelled from the spec: the walk of the whole tree starts with an empty
hierarchy prefix, so the root visit carries the one-segment path. -/
def walk (t : PkgTree) : List PackageVisit := walkFrom [] t

/-! ### Basic character and string lemmas -/

theorem toLower_data (s : String) : (String.toLower s).data = s.data.map Char.toLower := by
  rw [String.toLower, String.map_eq]

theorem char_toNat_ofNat_valid (n : Nat) (h : n.isValidChar) : (Char.ofNat n).toNat = n := by
  simp only [Char.ofNat, h, dif_pos, Char.ofNatAux, Char.toNat]
  rfl

theorem char_toLower_toLower (c : Char) : c.toLower.toLower = c.toLower := by
  unfold Char.toLower
  by_cases h : c.toNat ≥ 65 ∧ c.toNat ≤ 90
  · rw [if_pos h]
    have hv : (c.toNat + 32).isValidChar := by
      left
      omega
    rw [if_neg]
    rw [char_toNat_ofNat_valid _ hv]
    omega
  · rw [if_neg h, if_neg h]

theorem string_toLower_append (a b : String) :
    (a ++ b).toLower = a.toLower ++ b.toLower := by
  apply String.ext
  simp [toLower_data, String.data_append]

theorem string_toLower_toLower (s : String) : s.toLower.toLower = s.toLower := by
  apply String.ext
  simp only [toLower_data, List.map_map]
  apply List.map_congr_left
  intro c _
  exact char_toLower_toLower c

theorem string_append_cancel_left {a b c : String} (h : a ++ b = a ++ c) : b = c := by
  apply String.ext
  have hd := congrArg String.data h
  simp only [String.data_append] at hd
  exact List.append_cancel_left hd

theorem string_append_ne_of_ne (a : String) {b c : String} (h : b ≠ c) : a ++ b ≠ a ++ c :=
  fun heq => h (string_append_cancel_left heq)

/-! ### Path lemmas -/

theorem startsWithSep_append (a b : String) :
    startsWithSep (a ++ b) = if a.data = [] then startsWithSep b else startsWithSep a := by
  by_cases h : a.data = []
  · rw [if_pos h]
    simp only [startsWithSep, String.data_append, h, List.nil_append]
  · rw [if_neg h]
    obtain ⟨c, t, hct⟩ := List.exists_cons_of_ne_nil h
    simp only [startsWithSep, String.data_append, hct, List.cons_append, List.head?_cons]

theorem os_path_join_right_ne (d : String) {b1 b2 : String}
    (hs : startsWithSep b1 = startsWithSep b2) (hne : b1 ≠ b2) :
    os_path_join d b1 ≠ os_path_join d b2 := by
  unfold os_path_join
  rw [hs]
  by_cases h2 : startsWithSep b2 = true
  · rw [if_pos h2, if_pos h2]
    exact hne
  · rw [if_neg h2, if_neg h2]
    by_cases hd : d = ""
    · rw [if_pos hd, if_pos hd]
      exact hne
    · rw [if_neg hd, if_neg hd]
      by_cases he : endsWithSep d = true
      · rw [if_pos he, if_pos he]
        exact string_append_ne_of_ne d hne
      · rw [if_neg he, if_neg he]
        exact string_append_ne_of_ne (d ++ "/") hne

theorem os_path_join_suffix_ne (d M s1 s2 : String)
    (h1 : s1.data.head? = some '.') (h2 : s2.data.head? = some '.') (hne : s1 ≠ s2) :
    os_path_join d (M ++ s1) ≠ os_path_join d (M ++ s2) := by
  apply os_path_join_right_ne
  · rw [startsWithSep_append, startsWithSep_append]
    by_cases hM : M.data = []
    · simp only [hM, if_pos]
      simp [startsWithSep, h1, h2]
    · simp [hM]
  · exact string_append_ne_of_ne M hne

theorem startsWithSep_abspath (cwd p : String) (hcwd : startsWithSep cwd = true) :
    startsWithSep (os_path_abspath cwd p) = true := by
  unfold os_path_abspath os_path_isabs
  by_cases hp : startsWithSep p
  · rw [if_pos hp]
    exact hp
  · rw [if_neg hp]
    unfold os_path_join
    rw [if_neg hp]
    have hcd : cwd ≠ "" := by
      intro h
      rw [h] at hcwd
      simp [startsWithSep] at hcwd
    rw [if_neg hcd]
    by_cases he : endsWithSep cwd
    · rw [if_pos he, startsWithSep_append]
      have : cwd.data ≠ [] := by
        intro h
        apply hcd
        apply String.ext
        simp [h]
      simp [this, hcwd]
    · rw [if_neg he, startsWithSep_append, startsWithSep_append]
      have : cwd.data ≠ [] := by
        intro h
        apply hcd
        apply String.ext
        simp [h]
      simp [this, hcwd]

/-! ### Filesystem lemmas -/

theorem lookup_filter_ne {q p : String} (l : List (String × FileContent)) (h : q ≠ p) :
    List.lookup q (l.filter (fun e => e.1 ≠ p)) = List.lookup q l := by
  induction l with
  | nil => rfl
  | cons hd tl ih =>
    obtain ⟨k, v⟩ := hd
    by_cases hkp : k = p
    · subst hkp
      rw [List.filter_cons, if_neg (by simp)]
      rw [ih, List.lookup_cons]
      have hqk : (q == k) = false := by simpa using h
      rw [hqk]
    · rw [List.filter_cons, if_pos (by simpa using hkp)]
      rw [List.lookup_cons, List.lookup_cons, ih]

theorem lookupFile_writeFile (fs : FS) (p q : String) (c : FileContent) :
    (fs.writeFile p c).lookupFile q = if q = p then some c else fs.lookupFile q := by
  unfold FS.writeFile FS.lookupFile
  rw [List.lookup_cons]
  by_cases h : q = p
  · have hb : (q == p) = true := by simpa using h
    rw [hb, if_pos h]
  · have hb : (q == p) = false := by simpa using h
    rw [hb, if_neg h]
    exact lookup_filter_ne _ h

theorem dirs_writeFile (fs : FS) (p : String) (c : FileContent) :
    (fs.writeFile p c).dirs = fs.dirs := rfl

/-! ### Characterizing the files a run writes -/

/-- Apply a list of writes, given most-recent-first (the head of `ws` is the
last write performed). -/
def FS.writeAll (fs : FS) (ws : List (String × FileContent)) : FS :=
  ws.foldr (fun e acc => acc.writeFile e.1 e.2) fs

theorem writeAll_nil (fs : FS) : fs.writeAll [] = fs := rfl

theorem writeAll_cons (fs : FS) (e : (String × FileContent)) (ws : List (String × FileContent)) :
    fs.writeAll (e :: ws) = (fs.writeAll ws).writeFile e.1 e.2 := rfl

theorem lookupFile_writeAll (fs : FS) (ws : List (String × FileContent)) (p : String) :
    (fs.writeAll ws).lookupFile p = (ws.lookup p).or (fs.lookupFile p) := by
  induction ws with
  | nil => rfl
  | cons e tl ih =>
    obtain ⟨k, v⟩ := e
    rw [writeAll_cons, lookupFile_writeFile, List.lookup_cons]
    by_cases h : p = k
    · have hb : (p == k) = true := by simpa using h
      rw [hb, if_pos h]
      rfl
    · have hb : (p == k) = false := by simpa using h
      rw [hb, if_neg h, ih]

theorem dirs_writeAll (fs : FS) (ws : List (String × FileContent)) :
    (fs.writeAll ws).dirs = fs.dirs := by
  induction ws with
  | nil => rfl
  | cons e tl ih => rw [writeAll_cons, dirs_writeFile, ih]

/-- The text delivered by a fetch, when it succeeded. -/
def fetched_text (r : Except Err String) : String :=
  match r with
  | Except.ok t => t
  | Except.error _ => ""

/-- The files (most recent write first) that dispatching one object writes,
assuming its fetches succeed. -/
def exporter_writes (conn : Connection) (o : ObjectRef) (destdir : String) :
    List (String × FileContent) :=
  if o.typ = "PROG/P" then
    [(build_filename o.name ".prog" "abap" (some destdir),
      FileContent.text (fetched_text (conn.fetchProgramText o.name)))]
  else if o.typ = "INTF/OI" then
    [(build_filename o.name ".intf" "abap" (some destdir),
      FileContent.text (fetched_text (conn.fetchInterfaceText o.name)))]
  else if o.typ = "CLAS/OC" then
    match conn.fetchClass o.name with
    | Except.error _ => []
    | Except.ok clas =>
      [(build_filename o.name ".clas" "xml" (some destdir),
        FileContent.vseoclassXml (build_class_abap_attributes clas)),
       (build_filename o.name ".clas.testclasses" "abap" (some destdir),
        FileContent.text (fetched_text clas.test_classes)),
       (build_filename o.name ".clas.locals_imp" "abap" (some destdir),
        FileContent.text (fetched_text clas.implementations)),
       (build_filename o.name ".clas.locals_def" "abap" (some destdir),
        FileContent.text (fetched_text clas.definitions)),
       (build_filename o.name ".clas" "abap" (some destdir),
        FileContent.text (fetched_text clas.text))]
  else []

/-- The files (most recent write first) a whole `checkout_objects` run writes,
assuming all fetches succeed. -/
def run_writes (conn : Connection) (objs : List ObjectRef) (destdir : String) :
    List (String × FileContent) :=
  match objs with
  | [] => []
  | o :: rest => run_writes conn rest destdir ++ exporter_writes conn o destdir

/-- All four source bodies of a fetched class are available. -/
def ClassDataTotal (c : ClassData) : Prop :=
  (∃ t, c.text = Except.ok t) ∧ (∃ t, c.definitions = Except.ok t) ∧
  (∃ t, c.implementations = Except.ok t) ∧ (∃ t, c.test_classes = Except.ok t)

/-- A connection on which every fetch succeeds. -/
def ConnTotal (conn : Connection) : Prop :=
  (∀ n, ∃ c, conn.fetchClass n = Except.ok c ∧ ClassDataTotal c) ∧
  (∀ n, ∃ t, conn.fetchProgramText n = Except.ok t) ∧
  (∀ n, ∃ t, conn.fetchInterfaceText n = Except.ok t)

/-! ### Effect lemmas for the three exporters -/

theorem checkout_program_effect (conn : Connection) (n d : String) (w : World) (t : String)
    (h : conn.fetchProgramText n = Except.ok t) :
    checkout_program conn n (some d) w =
      ({ w with fs := w.fs.writeAll (exporter_writes conn ⟨"PROG/P", n⟩ d) }, none) := by
  simp [checkout_program, download_abap_source, h, exporter_writes, writeAll_cons, writeAll_nil,
    fetched_text]

theorem checkout_interface_effect (conn : Connection) (n d : String) (w : World) (t : String)
    (h : conn.fetchInterfaceText n = Except.ok t) :
    checkout_interface conn n (some d) w =
      ({ w with fs := w.fs.writeAll (exporter_writes conn ⟨"INTF/OI", n⟩ d) }, none) := by
  simp [checkout_interface, download_abap_source, h, exporter_writes, writeAll_cons, writeAll_nil,
    fetched_text]

theorem checkout_class_effect (conn : Connection) (n d : String) (w : World) (clas : ClassData)
    (hc : conn.fetchClass n = Except.ok clas) (hT : ClassDataTotal clas) :
    checkout_class conn n (some d) w =
      ({ w with fs := w.fs.writeAll (exporter_writes conn ⟨"CLAS/OC", n⟩ d) }, none) := by
  obtain ⟨⟨t1, h1⟩, ⟨t2, h2⟩, ⟨t3, h3⟩, ⟨t4, h4⟩⟩ := hT
  simp [checkout_class, download_abap_source, dump_attributes_to_file, seqRun,
    hc, h1, h2, h3, h4, exporter_writes, writeAll_cons, writeAll_nil, fetched_text]

/-- Inversion of the dispatch-table lookup. -/
theorem checkouters_lookup_inv {t : String} {exp : Exporter}
    (h : checkouters.lookup t = some exp) :
    (t = "PROG/P" ∧ exp = checkout_program) ∨ (t = "CLAS/OC" ∧ exp = checkout_class) ∨
    (t = "INTF/OI" ∧ exp = checkout_interface) := by
  by_cases h1 : t = "PROG/P"
  · left
    refine ⟨h1, ?_⟩
    subst h1
    simpa [checkouters, List.lookup] using h.symm
  · by_cases h2 : t = "CLAS/OC"
    · right
      left
      refine ⟨h2, ?_⟩
      subst h2
      simpa [checkouters, List.lookup] using h.symm
    · by_cases h3 : t = "INTF/OI"
      · right
        right
        refine ⟨h3, ?_⟩
        subst h3
        simpa [checkouters, List.lookup] using h.symm
      · exfalso
        have hb1 : (t == "PROG/P") = false := by simpa using h1
        have hb2 : (t == "CLAS/OC") = false := by simpa using h2
        have hb3 : (t == "INTF/OI") = false := by simpa using h3
        simp [checkouters, List.lookup_cons, hb1, hb2, hb3] at h

theorem checkouters_lookup_of_supported {t : String}
    (h : t = "PROG/P" ∨ t = "CLAS/OC" ∨ t = "INTF/OI") :
    (checkouters.lookup t).isSome := by
  rcases h with h | h | h <;> subst h <;> rfl

theorem exporter_writes_unsupported (conn : Connection) (o : ObjectRef) (destdir : String)
    (h : checkouters.lookup o.typ = none) :
    exporter_writes conn o destdir = [] := by
  have h1 : o.typ ≠ "PROG/P" := by
    intro he
    rw [he] at h
    simp [checkouters, List.lookup_cons] at h
  have h2 : o.typ ≠ "CLAS/OC" := by
    intro he
    rw [he] at h
    simp [checkouters, List.lookup_cons] at h
  have h3 : o.typ ≠ "INTF/OI" := by
    intro he
    rw [he] at h
    simp [checkouters, List.lookup_cons] at h
  rw [exporter_writes, if_neg h1, if_neg h3, if_neg h2]

theorem lookup_append (l1 l2 : List (String × FileContent)) (k : String) :
    List.lookup k (l1 ++ l2) = (List.lookup k l1).or (List.lookup k l2) := by
  induction l1 with
  | nil => simp
  | cons e tl ih =>
    obtain ⟨a, b⟩ := e
    rw [List.cons_append, List.lookup_cons, List.lookup_cons]
    cases hab : (k == a) with
    | true => rfl
    | false => exact ih

/-! ### The total-run characterization of the object loop -/

theorem checkout_loop_total (conn : Connection) (hT : ConnTotal conn) (destdir : String)
    (objs : List ObjectRef) : ∀ (w : World), ∃ w1,
      checkout_loop conn objs destdir w = (w1, none) ∧
      w1.fs.dirs = w.fs.dirs ∧
      w1.stderrLines = w.stderrLines ++
        (objs.filter (fun o => (checkouters.lookup o.typ).isNone)).map unsupported_diag ∧
      ∀ p, w1.fs.lookupFile p = ((run_writes conn objs destdir).lookup p).or (w.fs.lookupFile p) := by
  induction objs with
  | nil =>
    intro w
    exact ⟨w, rfl, rfl, by simp, fun p => by simp [run_writes]⟩
  | cons o rest ih =>
    intro w
    cases hlk : checkouters.lookup o.typ with
    | none =>
      obtain ⟨w1, he, hdirs, hs, hf⟩ :=
        ih { w with stderrLines := w.stderrLines ++ [unsupported_diag o] }
      refine ⟨w1, ?_, hdirs, ?_, ?_⟩
      · simp only [checkout_loop, hlk]
        exact he
      · rw [hs]
        simp only [List.filter_cons]
        rw [if_pos (by simp [hlk])]
        simp
      · intro p
        rw [hf p]
        simp only [run_writes, lookup_append, exporter_writes_unsupported conn o destdir hlk]
        simp
    | some exporter =>
      have hstep : exporter conn o.name (some destdir) w =
          ({ w with fs := w.fs.writeAll (exporter_writes conn o destdir) }, none) := by
        rcases checkouters_lookup_inv hlk with ⟨ht, hexp⟩ | ⟨ht, hexp⟩ | ⟨ht, hexp⟩
        · obtain ⟨t, hfetch⟩ := hT.2.1 o.name
          subst hexp
          have := checkout_program_effect conn o.name destdir w t hfetch
          rw [this]
          have : o = ⟨o.typ, o.name⟩ := rfl
          rw [show (⟨"PROG/P", o.name⟩ : ObjectRef) = o by rw [← ht]]
        · obtain ⟨clas, hfetch, hcT⟩ := hT.1 o.name
          subst hexp
          have := checkout_class_effect conn o.name destdir w clas hfetch hcT
          rw [this]
          rw [show (⟨"CLAS/OC", o.name⟩ : ObjectRef) = o by rw [← ht]]
        · obtain ⟨t, hfetch⟩ := hT.2.2 o.name
          subst hexp
          have := checkout_interface_effect conn o.name destdir w t hfetch
          rw [this]
          rw [show (⟨"INTF/OI", o.name⟩ : ObjectRef) = o by rw [← ht]]
      obtain ⟨w1, he, hdirs, hs, hf⟩ :=
        ih { w with fs := w.fs.writeAll (exporter_writes conn o destdir) }
      refine ⟨w1, ?_, ?_, ?_, ?_⟩
      · simp only [checkout_loop, hlk, hstep]
        exact he
      · rw [hdirs]
        exact dirs_writeAll w.fs _
      · rw [hs]
        simp only [List.filter_cons]
        rw [if_neg (by simp [hlk])]
      · intro p
        rw [hf p]
        simp only [run_writes, lookup_append]
        have : FS.lookupFile { w with fs := w.fs.writeAll (exporter_writes conn o destdir) }.fs p =
            ((exporter_writes conn o destdir).lookup p).or (w.fs.lookupFile p) :=
          lookupFile_writeAll w.fs _ p
        rw [this, Option.or_assoc]

/-- The total-run characterization of `checkout_objects`: with a connection on
which every fetch succeeds the run never aborts, creates the destination
directory exactly when it was absent, prints exactly one diagnostic per
unsupported object in list order, and the final files are the run's writes
overlaid on the initial files. -/
theorem checkout_objects_total (conn : Connection) (hT : ConnTotal conn)
    (objs : List ObjectRef) (destdir : String) (w : World) :
    ∃ w1, checkout_objects conn objs destdir w = (w1, none) ∧
      w1.fs.dirs = (if w.fs.isdir destdir then w.fs.dirs else destdir :: w.fs.dirs) ∧
      w1.stderrLines = w.stderrLines ++
        (objs.filter (fun o => (checkouters.lookup o.typ).isNone)).map unsupported_diag ∧
      ∀ p, w1.fs.lookupFile p = ((run_writes conn objs destdir).lookup p).or (w.fs.lookupFile p) := by
  by_cases hd : w.fs.isdir destdir
  · obtain ⟨w1, he, hdirs, hs, hf⟩ := checkout_loop_total conn hT destdir objs w
    refine ⟨w1, ?_, ?_, hs, hf⟩
    · simp only [checkout_objects, hd, if_pos]
      exact he
    · rw [if_pos hd]
      exact hdirs
  · have hmem : destdir ∉ w.fs.dirs := by
      simpa [FS.isdir] using hd
    have hm : w.fs.makedirs destdir =
        Except.ok { dirs := destdir :: w.fs.dirs, files := w.fs.files } := by
      simp [FS.makedirs, hmem]
    obtain ⟨w1, he, hdirs, hs, hf⟩ := checkout_loop_total conn hT destdir objs
      { w with fs := { dirs := destdir :: w.fs.dirs, files := w.fs.files } }
    refine ⟨w1, ?_, ?_, hs, ?_⟩
    · simp only [checkout_objects, hd, if_neg, hm]
      exact he
    · rw [if_neg hd]
      exact hdirs
    · intro p
      rw [hf p]
      rfl

/-! ### Normalized file paths -/

theorem build_filename_some (n sfx ext d : String) :
    build_filename n sfx ext (some d) =
      os_path_join d (n.toLower ++ (sfx ++ "." ++ ext).toLower) := by
  unfold build_filename
  have h : n ++ sfx ++ "." ++ ext = n ++ (sfx ++ "." ++ ext) := by
    simp [String.append_assoc]
  rw [h, string_toLower_append]

theorem suffix_clas_abap : (".clas" ++ "." ++ "abap").toLower = ".clas.abap" := by
  apply String.ext
  rw [toLower_data]
  decide

theorem suffix_locals_def : (".clas.locals_def" ++ "." ++ "abap").toLower =
    ".clas.locals_def.abap" := by
  apply String.ext
  rw [toLower_data]
  decide

theorem suffix_locals_imp : (".clas.locals_imp" ++ "." ++ "abap").toLower =
    ".clas.locals_imp.abap" := by
  apply String.ext
  rw [toLower_data]
  decide

theorem suffix_testclasses : (".clas.testclasses" ++ "." ++ "abap").toLower =
    ".clas.testclasses.abap" := by
  apply String.ext
  rw [toLower_data]
  decide

theorem suffix_clas_xml : (".clas" ++ "." ++ "xml").toLower = ".clas.xml" := by
  apply String.ext
  rw [toLower_data]
  decide

theorem suffix_prog_abap : (".prog" ++ "." ++ "abap").toLower = ".prog.abap" := by
  apply String.ext
  rw [toLower_data]
  decide

theorem suffix_intf_abap : (".intf" ++ "." ++ "abap").toLower = ".intf.abap" := by
  apply String.ext
  rw [toLower_data]
  decide

/-! ### Exporters never touch directories or the error stream -/

theorem checkout_program_preserves (conn : Connection) (n : String) (d : Option String)
    (w : World) :
    (checkout_program conn n d w).1.fs.dirs = w.fs.dirs ∧
    (checkout_program conn n d w).1.stderrLines = w.stderrLines := by
  unfold checkout_program download_abap_source
  cases conn.fetchProgramText n <;> simp [FS.writeFile]

theorem checkout_interface_preserves (conn : Connection) (n : String) (d : Option String)
    (w : World) :
    (checkout_interface conn n d w).1.fs.dirs = w.fs.dirs ∧
    (checkout_interface conn n d w).1.stderrLines = w.stderrLines := by
  unfold checkout_interface download_abap_source
  cases conn.fetchInterfaceText n <;> simp [FS.writeFile]

theorem checkout_class_preserves (conn : Connection) (n : String) (d : Option String)
    (w : World) :
    (checkout_class conn n d w).1.fs.dirs = w.fs.dirs ∧
    (checkout_class conn n d w).1.stderrLines = w.stderrLines := by
  unfold checkout_class
  cases hc : conn.fetchClass n with
  | error e => simp
  | ok clas =>
    cases h1 : clas.text <;> cases h2 : clas.definitions <;> cases h3 : clas.implementations <;>
      cases h4 : clas.test_classes <;>
        simp [seqRun, download_abap_source, dump_attributes_to_file, h1, h2, h3, h4, FS.writeFile]

theorem checkout_loop_dirs (conn : Connection) (destdir : String)
    (objs : List ObjectRef) : ∀ w : World,
    (checkout_loop conn objs destdir w).1.fs.dirs = w.fs.dirs := by
  induction objs with
  | nil => intro w; rfl
  | cons o rest ih =>
    intro w
    cases hlk : checkouters.lookup o.typ with
    | none =>
      simp only [checkout_loop, hlk]
      exact ih _
    | some exporter =>
      have hpres : (exporter conn o.name (some destdir) w).1.fs.dirs = w.fs.dirs := by
        rcases checkouters_lookup_inv hlk with ⟨_, hexp⟩ | ⟨_, hexp⟩ | ⟨_, hexp⟩ <;> subst hexp
        · exact (checkout_program_preserves conn o.name (some destdir) w).1
        · exact (checkout_class_preserves conn o.name (some destdir) w).1
        · exact (checkout_interface_preserves conn o.name (some destdir) w).1
      simp only [checkout_loop, hlk]
      cases hres : exporter conn o.name (some destdir) w with
      | mk w1 r =>
        rw [hres] at hpres
        cases r with
        | none =>
          rw [ih w1]
          exact hpres
        | some e =>
          cases e with
          | keyError s =>
            rw [ih _]
            exact hpres
          | fetchFailure s => exact hpres
          | fsFailure s => exact hpres

/-! ### Claim C7 -/

/-- C7: for every fetched class, the attribute record maps the version flag to
the active sentinel "1" exactly when the active state equals "active" and to
the inactive sentinel "0" otherwise, mirrors the fixed-point-arithmetic
boolean as "X"/" ", maps the modeled state to "0" and the unmodeled state to
"1", and always sets the compiler-check-include flag and the unicode flag to
the true sentinel "X". -/
theorem claim_C7_class_attribute_mapping (clas : ClassData) :
    ((build_class_abap_attributes clas).VERSION = "1" ↔ clas.active = "active") ∧
    ((build_class_abap_attributes clas).VERSION = "0" ↔ clas.active ≠ "active") ∧
    ((build_class_abap_attributes clas).FIXPT = "X" ↔ clas.fix_point_arithmetic = true) ∧
    ((build_class_abap_attributes clas).FIXPT = " " ↔ clas.fix_point_arithmetic = false) ∧
    ((build_class_abap_attributes clas).STATE = "0" ↔ clas.modeled = true) ∧
    ((build_class_abap_attributes clas).STATE = "1" ↔ clas.modeled = false) ∧
    (build_class_abap_attributes clas).CLSCCINCL = "X" ∧
    (build_class_abap_attributes clas).UNICODE = "X" := by
  unfold build_class_abap_attributes
  by_cases ha : clas.active = "active" <;> cases hm : clas.modeled <;>
    cases hf : clas.fix_point_arithmetic <;> simp [ha, hm, hf]

/-! ### Claim C5 -/

/-- C5: `build_filename` produces the full lower-casing of
`<name><suffix>.<ext>`; the produced name is itself fixed under lower-casing
(all-lower-case output), and lower-casing the supplied object name first does
not change the result (the casing of the supplied name is irrelevant). -/
theorem claim_C5_build_filename_lowercase (object_name typsfx fileext : String) :
    build_filename object_name typsfx fileext none =
      (object_name ++ typsfx ++ "." ++ fileext).toLower ∧
    (build_filename object_name typsfx fileext none).toLower =
      build_filename object_name typsfx fileext none ∧
    build_filename object_name.toLower typsfx fileext none =
      build_filename object_name typsfx fileext none := by
  refine ⟨rfl, ?_, ?_⟩
  · show ((object_name ++ typsfx ++ "." ++ fileext).toLower).toLower =
      (object_name ++ typsfx ++ "." ++ fileext).toLower
    exact string_toLower_toLower _
  · show (object_name.toLower ++ typsfx ++ "." ++ fileext).toLower =
      (object_name ++ typsfx ++ "." ++ fileext).toLower
    have ha : ∀ n : String, n ++ typsfx ++ "." ++ fileext = n ++ (typsfx ++ "." ++ fileext) := by
      intro n
      simp [String.append_assoc]
    rw [ha, ha]
    calc (object_name.toLower ++ (typsfx ++ "." ++ fileext)).toLower
        = object_name.toLower.toLower ++ (typsfx ++ "." ++ fileext).toLower :=
          string_toLower_append _ _
      _ = object_name.toLower ++ (typsfx ++ "." ++ fileext).toLower := by
          rw [string_toLower_toLower]
      _ = (object_name ++ (typsfx ++ "." ++ fileext)).toLower :=
          (string_toLower_append _ _).symm

/-! ### Claim C10 -/

/-- C10: after any call to `checkout_objects` the destination directory exists,
even when the object list is empty (it is created before the loop); on an
empty list the call also never fails. -/
theorem claim_C10_destdir_exists_after_call (connection : Connection)
    (objects : List ObjectRef) (destdir : String) (w : World) :
    destdir ∈ (checkout_objects connection objects destdir w).1.fs.dirs ∧
    (checkout_objects connection [] destdir w).2 = none := by
  constructor
  · unfold checkout_objects
    by_cases hd : w.fs.isdir destdir
    · rw [if_pos hd, checkout_loop_dirs]
      simpa [FS.isdir] using hd
    · have hmem : destdir ∉ w.fs.dirs := by
        simpa [FS.isdir] using hd
      have hm : w.fs.makedirs destdir =
          Except.ok { dirs := destdir :: w.fs.dirs, files := w.fs.files } := by
        simp [FS.makedirs, hmem]
      rw [if_neg hd, hm]
      rw [checkout_loop_dirs]
      simp
  · unfold checkout_objects
    by_cases hd : w.fs.isdir destdir
    · rw [if_pos hd]
      rfl
    · have hmem : destdir ∉ w.fs.dirs := by
        simpa [FS.isdir] using hd
      have hm : w.fs.makedirs destdir =
          Except.ok { dirs := destdir :: w.fs.dirs, files := w.fs.files } := by
        simp [FS.makedirs, hmem]
      rw [if_neg hd, hm]
      rfl

/-! ### Claim C2 -/

/-- C2: when a dispatched exporter fails with anything other than a
`KeyError` (fetch and filesystem failures in particular are not such errors),
`checkout_objects` returns exactly that error: the run aborts, the rest of the
list is not processed, and no "unsupported" diagnostic is produced for the
failing object. -/
theorem claim_C2_exporter_failure_propagates (conn : Connection) (o : ObjectRef)
    (rest : List ObjectRef) (destdir : String) (w we : World) (e : Err) (exp : Exporter)
    (hdir : w.fs.isdir destdir = true)
    (hexp : checkouters.lookup o.typ = some exp)
    (hrun : exp conn o.name (some destdir) w = (we, some e))
    (hkey : e.isKeyError = false) :
    checkout_objects conn (o :: rest) destdir w = (we, some e) ∧
    we.stderrLines = w.stderrLines := by
  have hstderr : we.stderrLines = w.stderrLines := by
    have hfst : (exp conn o.name (some destdir) w).1.stderrLines = w.stderrLines := by
      rcases checkouters_lookup_inv hexp with ⟨_, h⟩ | ⟨_, h⟩ | ⟨_, h⟩ <;> subst h
      · exact (checkout_program_preserves conn o.name (some destdir) w).2
      · exact (checkout_class_preserves conn o.name (some destdir) w).2
      · exact (checkout_interface_preserves conn o.name (some destdir) w).2
    rw [hrun] at hfst
    exact hfst
  refine ⟨?_, hstderr⟩
  unfold checkout_objects
  rw [if_pos hdir]
  simp only [checkout_loop, hexp, hrun]
  cases e with
  | keyError s => simp [Err.isKeyError] at hkey
  | fetchFailure s => rfl
  | fsFailure s => rfl

/-- C2 witness: a program object whose fetch fails with a network error; the
error comes out of `checkout_objects` unchanged and no diagnostic is printed. -/
def failing_conn : Connection :=
  { fetchClass := fun _ => Except.error (Err.fetchFailure "net"),
    fetchProgramText := fun _ => Except.error (Err.fetchFailure "net"),
    fetchInterfaceText := fun _ => Except.error (Err.fetchFailure "net") }

/-- A world in which the destination directory `dst` already exists. -/
def w0dst : World := { fs := { dirs := ["dst"], files := [] }, stderrLines := [] }

/-- The world after the failing program exporter ran: the truncated empty
source file is on disk, nothing else changed. -/
def wfail : World :=
  { w0dst with
      fs := w0dst.fs.writeFile (build_filename "ZX" ".prog" "abap" (some "dst"))
        (FileContent.text "") }

theorem claim_C2_witness :
    w0dst.fs.isdir "dst" = true ∧
    checkouters.lookup (ObjectRef.mk "PROG/P" "ZX").typ = some checkout_program ∧
    checkout_program failing_conn (ObjectRef.mk "PROG/P" "ZX").name (some "dst") w0dst =
      (wfail, some (Err.fetchFailure "net")) ∧
    (Err.fetchFailure "net").isKeyError = false ∧
    (checkout_objects failing_conn [ObjectRef.mk "PROG/P" "ZX"] "dst" w0dst =
        (wfail, some (Err.fetchFailure "net")) ∧
      wfail.stderrLines = w0dst.stderrLines) :=
  ⟨rfl, rfl, rfl, rfl,
    claim_C2_exporter_failure_propagates failing_conn (ObjectRef.mk "PROG/P" "ZX") []
      "dst" w0dst wfail (Err.fetchFailure "net") checkout_program rfl rfl rfl rfl⟩

/-! ### Claim C1 -/

/-- The three type tags that have an exporter. -/
def supported_tags : List String := ["PROG/P", "CLAS/OC", "INTF/OI"]

/-- The path of the main source file an exporter writes for an object. -/
def main_file_path (destdir : String) (o : ObjectRef) : String :=
  if o.typ = "PROG/P" then build_filename o.name ".prog" "abap" (some destdir)
  else if o.typ = "INTF/OI" then build_filename o.name ".intf" "abap" (some destdir)
  else build_filename o.name ".clas" "abap" (some destdir)

theorem checkouters_lookup_isNone_eq (t : String) :
    (checkouters.lookup t).isNone = decide (t ∉ supported_tags) := by
  by_cases h1 : t = "PROG/P"
  · subst h1
    simp [checkouters, supported_tags, List.lookup_cons]
  · by_cases h2 : t = "CLAS/OC"
    · subst h2
      simp [checkouters, supported_tags, List.lookup_cons]
    · by_cases h3 : t = "INTF/OI"
      · subst h3
        simp [checkouters, supported_tags, List.lookup_cons]
      · have hb1 : (t == "PROG/P") = false := by simpa using h1
        have hb2 : (t == "CLAS/OC") = false := by simpa using h2
        have hb3 : (t == "INTF/OI") = false := by simpa using h3
        simp [checkouters, supported_tags, List.lookup_cons, hb1, hb2, hb3, h1, h2, h3]

theorem exporter_writes_lookup_main (conn : Connection) (hT : ConnTotal conn) (destdir : String)
    (o : ObjectRef) (hsup : o.typ ∈ supported_tags) :
    (List.lookup (main_file_path destdir o) (exporter_writes conn o destdir)).isSome := by
  have hsup3 : o.typ = "PROG/P" ∨ o.typ = "CLAS/OC" ∨ o.typ = "INTF/OI" := by
    simpa [supported_tags] using hsup
  rcases hsup3 with h | h | h
  · unfold exporter_writes main_file_path
    rw [if_pos h, if_pos h]
    simp [List.lookup_cons]
  · have hnp : o.typ ≠ "PROG/P" := by rw [h]; decide
    have hni : o.typ ≠ "INTF/OI" := by rw [h]; decide
    unfold exporter_writes main_file_path
    rw [if_neg hnp, if_neg hni, if_pos h, if_neg hnp, if_neg hni]
    obtain ⟨clas, hfetch, _⟩ := hT.1 o.name
    rw [hfetch]
    have hmain : build_filename o.name ".clas" "abap" (some destdir) =
        os_path_join destdir (o.name.toLower ++ ".clas.abap") := by
      rw [build_filename_some, suffix_clas_abap]
    have hxml : build_filename o.name ".clas" "xml" (some destdir) =
        os_path_join destdir (o.name.toLower ++ ".clas.xml") := by
      rw [build_filename_some, suffix_clas_xml]
    have htc : build_filename o.name ".clas.testclasses" "abap" (some destdir) =
        os_path_join destdir (o.name.toLower ++ ".clas.testclasses.abap") := by
      rw [build_filename_some, suffix_testclasses]
    have him : build_filename o.name ".clas.locals_imp" "abap" (some destdir) =
        os_path_join destdir (o.name.toLower ++ ".clas.locals_imp.abap") := by
      rw [build_filename_some, suffix_locals_imp]
    have hdf : build_filename o.name ".clas.locals_def" "abap" (some destdir) =
        os_path_join destdir (o.name.toLower ++ ".clas.locals_def.abap") := by
      rw [build_filename_some, suffix_locals_def]
    rw [hmain, hxml, htc, him, hdf]
    have hne1 := os_path_join_suffix_ne destdir o.name.toLower ".clas.abap" ".clas.xml"
      (by decide) (by decide) (by decide)
    have hne2 := os_path_join_suffix_ne destdir o.name.toLower ".clas.abap" ".clas.testclasses.abap"
      (by decide) (by decide) (by decide)
    have hne3 := os_path_join_suffix_ne destdir o.name.toLower ".clas.abap" ".clas.locals_imp.abap"
      (by decide) (by decide) (by decide)
    have hne4 := os_path_join_suffix_ne destdir o.name.toLower ".clas.abap" ".clas.locals_def.abap"
      (by decide) (by decide) (by decide)
    simp only [List.lookup_cons]
    rw [show (os_path_join destdir (o.name.toLower ++ ".clas.abap") ==
        os_path_join destdir (o.name.toLower ++ ".clas.xml")) = false by simpa using hne1]
    rw [show (os_path_join destdir (o.name.toLower ++ ".clas.abap") ==
        os_path_join destdir (o.name.toLower ++ ".clas.testclasses.abap")) = false by
      simpa using hne2]
    rw [show (os_path_join destdir (o.name.toLower ++ ".clas.abap") ==
        os_path_join destdir (o.name.toLower ++ ".clas.locals_imp.abap")) = false by
      simpa using hne3]
    rw [show (os_path_join destdir (o.name.toLower ++ ".clas.abap") ==
        os_path_join destdir (o.name.toLower ++ ".clas.locals_def.abap")) = false by
      simpa using hne4]
    simp
  · have hnp : o.typ ≠ "PROG/P" := by rw [h]; decide
    unfold exporter_writes main_file_path
    rw [if_neg hnp, if_pos h, if_neg hnp, if_pos h]
    simp [List.lookup_cons]

theorem run_writes_lookup_main (conn : Connection) (hT : ConnTotal conn) (destdir : String)
    (objs : List ObjectRef) (o : ObjectRef) (ho : o ∈ objs) (hsup : o.typ ∈ supported_tags) :
    (List.lookup (main_file_path destdir o) (run_writes conn objs destdir)).isSome := by
  induction objs with
  | nil => cases ho
  | cons o2 rest ih =>
    rw [run_writes, lookup_append]
    rcases List.mem_cons.mp ho with heq | hmem
    · subst heq
      have hews := exporter_writes_lookup_main conn hT destdir o hsup
      cases hl : List.lookup (main_file_path destdir o) (run_writes conn rest destdir) with
      | some c => simp [hl]
      | none =>
        cases hl2 : List.lookup (main_file_path destdir o) (exporter_writes conn o destdir) with
        | some c => simp [hl, hl2]
        | none =>
          rw [hl2] at hews
          simp at hews
    · have hrest := ih hmem
      cases hl : List.lookup (main_file_path destdir o) (run_writes conn rest destdir) with
      | some c => simp [hl]
      | none =>
        rw [hl] at hrest
        simp at hrest

/-- C1: with a connection on which every fetch succeeds, `checkout_objects`
never aborts on any list of objects: it appends to the error stream exactly
one `Unsupported object: <type_tag> <name>` line per object whose tag has no
exporter (in list order, for every order of the input list), and for every
object whose tag is one of `PROG/P`, `CLAS/OC`, `INTF/OI` the dispatched
exporter has written its main source file into the destination directory. -/
theorem claim_C1_dispatch_and_diagnostics (conn : Connection) (hT : ConnTotal conn)
    (objects : List ObjectRef) (destdir : String) (w : World) :
    ∃ w1, checkout_objects conn objects destdir w = (w1, none) ∧
      w1.stderrLines = w.stderrLines ++
        (objects.filter (fun o => decide (o.typ ∉ supported_tags))).map unsupported_diag ∧
      ∀ o ∈ objects, o.typ ∈ supported_tags →
        (w1.fs.lookupFile (main_file_path destdir o)).isSome := by
  obtain ⟨w1, he, _, hs, hf⟩ := checkout_objects_total conn hT objects destdir w
  refine ⟨w1, he, ?_, ?_⟩
  · rw [hs]
    have : objects.filter (fun o => (checkouters.lookup o.typ).isNone) =
        objects.filter (fun o => decide (o.typ ∉ supported_tags)) := by
      apply List.filter_congr
      intro o _
      exact checkouters_lookup_isNone_eq o.typ
    rw [this]
  · intro o ho hsup
    rw [hf]
    have hrw := run_writes_lookup_main conn hT destdir objects o ho hsup
    cases hl : List.lookup (main_file_path destdir o) (run_writes conn objects destdir) with
    | some c => simp [hl]
    | none =>
      rw [hl] at hrw
      simp at hrw

/-- A connection on which every fetch succeeds with fixed payloads. -/
def total_conn : Connection :=
  { fetchClass := fun n => Except.ok
      { name := n, active := "active", master_language := "EN", description := "demo",
        modeled := false, fix_point_arithmetic := true,
        text := Except.ok "T", definitions := Except.ok "D",
        implementations := Except.ok "I", test_classes := Except.ok "U" },
    fetchProgramText := fun _ => Except.ok "P",
    fetchInterfaceText := fun _ => Except.ok "N" }

theorem total_conn_total : ConnTotal total_conn :=
  ⟨fun n => ⟨_, rfl, ⟨"T", rfl⟩, ⟨"D", rfl⟩, ⟨"I", rfl⟩, ⟨"U", rfl⟩⟩,
   fun _ => ⟨"P", rfl⟩, fun _ => ⟨"N", rfl⟩⟩

theorem claim_C1_witness :
    ConnTotal total_conn ∧
    (∃ w1, checkout_objects total_conn
        [ObjectRef.mk "PROG/P" "ZP", ObjectRef.mk "FUGR/F" "ZF", ObjectRef.mk "CLAS/OC" "ZC"]
        "dst" w0dst = (w1, none) ∧
      w1.stderrLines = w0dst.stderrLines ++
        (([ObjectRef.mk "PROG/P" "ZP", ObjectRef.mk "FUGR/F" "ZF",
            ObjectRef.mk "CLAS/OC" "ZC"].filter
          (fun o => decide (o.typ ∉ supported_tags))).map unsupported_diag) ∧
      ∀ o ∈ [ObjectRef.mk "PROG/P" "ZP", ObjectRef.mk "FUGR/F" "ZF",
          ObjectRef.mk "CLAS/OC" "ZC"], o.typ ∈ supported_tags →
        (w1.fs.lookupFile (main_file_path "dst" o)).isSome) :=
  ⟨total_conn_total,
    claim_C1_dispatch_and_diagnostics total_conn total_conn_total
      [ObjectRef.mk "PROG/P" "ZP", ObjectRef.mk "FUGR/F" "ZF", ObjectRef.mk "CLAS/OC" "ZC"]
      "dst" w0dst⟩

/-! ### Claim C6 -/

theorem checkout_program_files (conn : Connection) (N d : String) (w : World) (tp : String)
    (hp : conn.fetchProgramText N = Except.ok tp) :
    ∃ wp, checkout_program conn N (some d) w = (wp, none) ∧
      wp.fs.lookupFile (os_path_join d (N.toLower ++ ".prog.abap")) =
        some (FileContent.text tp) ∧
      ∀ p, p ≠ os_path_join d (N.toLower ++ ".prog.abap") →
        wp.fs.lookupFile p = w.fs.lookupFile p := by
  have hpath : build_filename N ".prog" "abap" (some d) =
      os_path_join d (N.toLower ++ ".prog.abap") := by
    rw [build_filename_some, suffix_prog_abap]
  have heff : checkout_program conn N (some d) w =
      ({ w with fs := (w.fs.writeFile (os_path_join d (N.toLower ++ ".prog.abap"))
        (FileContent.text tp)) }, none) := by
    simp only [checkout_program, download_abap_source, hp, hpath]
  refine ⟨_, heff, ?_, ?_⟩
  · show FS.lookupFile _ _ = _
    rw [lookupFile_writeFile]
    simp
  · intro p hne
    show FS.lookupFile _ _ = _
    rw [lookupFile_writeFile, if_neg hne]

theorem checkout_interface_files (conn : Connection) (N d : String) (w : World) (ti : String)
    (hi : conn.fetchInterfaceText N = Except.ok ti) :
    ∃ wi, checkout_interface conn N (some d) w = (wi, none) ∧
      wi.fs.lookupFile (os_path_join d (N.toLower ++ ".intf.abap")) =
        some (FileContent.text ti) ∧
      ∀ p, p ≠ os_path_join d (N.toLower ++ ".intf.abap") →
        wi.fs.lookupFile p = w.fs.lookupFile p := by
  have hpath : build_filename N ".intf" "abap" (some d) =
      os_path_join d (N.toLower ++ ".intf.abap") := by
    rw [build_filename_some, suffix_intf_abap]
  have heff : checkout_interface conn N (some d) w =
      ({ w with fs := (w.fs.writeFile (os_path_join d (N.toLower ++ ".intf.abap"))
        (FileContent.text ti)) }, none) := by
    simp only [checkout_interface, download_abap_source, hi, hpath]
  refine ⟨_, heff, ?_, ?_⟩
  · show FS.lookupFile _ _ = _
    rw [lookupFile_writeFile]
    simp
  · intro p hne
    show FS.lookupFile _ _ = _
    rw [lookupFile_writeFile, if_neg hne]

theorem checkout_class_files (conn : Connection) (N d : String) (w : World)
    (clas : ClassData) (t1 t2 t3 t4 : String)
    (hc : conn.fetchClass N = Except.ok clas)
    (h1 : clas.text = Except.ok t1) (h2 : clas.definitions = Except.ok t2)
    (h3 : clas.implementations = Except.ok t3) (h4 : clas.test_classes = Except.ok t4) :
    ∃ wc, checkout_class conn N (some d) w = (wc, none) ∧
      wc.fs.lookupFile (os_path_join d (N.toLower ++ ".clas.abap")) =
        some (FileContent.text t1) ∧
      wc.fs.lookupFile (os_path_join d (N.toLower ++ ".clas.locals_def.abap")) =
        some (FileContent.text t2) ∧
      wc.fs.lookupFile (os_path_join d (N.toLower ++ ".clas.locals_imp.abap")) =
        some (FileContent.text t3) ∧
      wc.fs.lookupFile (os_path_join d (N.toLower ++ ".clas.testclasses.abap")) =
        some (FileContent.text t4) ∧
      wc.fs.lookupFile (os_path_join d (N.toLower ++ ".clas.xml")) =
        some (FileContent.vseoclassXml (build_class_abap_attributes clas)) ∧
      ∀ p, p ≠ os_path_join d (N.toLower ++ ".clas.abap") →
        p ≠ os_path_join d (N.toLower ++ ".clas.locals_def.abap") →
        p ≠ os_path_join d (N.toLower ++ ".clas.locals_imp.abap") →
        p ≠ os_path_join d (N.toLower ++ ".clas.testclasses.abap") →
        p ≠ os_path_join d (N.toLower ++ ".clas.xml") →
        wc.fs.lookupFile p = w.fs.lookupFile p := by
  have hk1 : build_filename N ".clas" "abap" (some d) =
      os_path_join d (N.toLower ++ ".clas.abap") := by
    rw [build_filename_some, suffix_clas_abap]
  have hk2 : build_filename N ".clas.locals_def" "abap" (some d) =
      os_path_join d (N.toLower ++ ".clas.locals_def.abap") := by
    rw [build_filename_some, suffix_locals_def]
  have hk3 : build_filename N ".clas.locals_imp" "abap" (some d) =
      os_path_join d (N.toLower ++ ".clas.locals_imp.abap") := by
    rw [build_filename_some, suffix_locals_imp]
  have hk4 : build_filename N ".clas.testclasses" "abap" (some d) =
      os_path_join d (N.toLower ++ ".clas.testclasses.abap") := by
    rw [build_filename_some, suffix_testclasses]
  have hk5 : build_filename N ".clas" "xml" (some d) =
      os_path_join d (N.toLower ++ ".clas.xml") := by
    rw [build_filename_some, suffix_clas_xml]
  have hne12 := os_path_join_suffix_ne d N.toLower ".clas.abap" ".clas.locals_def.abap"
      (by decide) (by decide) (by decide)
  have hne13 := os_path_join_suffix_ne d N.toLower ".clas.abap" ".clas.locals_imp.abap"
      (by decide) (by decide) (by decide)
  have hne14 := os_path_join_suffix_ne d N.toLower ".clas.abap" ".clas.testclasses.abap"
      (by decide) (by decide) (by decide)
  have hne15 := os_path_join_suffix_ne d N.toLower ".clas.abap" ".clas.xml"
      (by decide) (by decide) (by decide)
  have hne23 := os_path_join_suffix_ne d N.toLower ".clas.locals_def.abap" ".clas.locals_imp.abap"
      (by decide) (by decide) (by decide)
  have hne24 := os_path_join_suffix_ne d N.toLower ".clas.locals_def.abap" ".clas.testclasses.abap"
      (by decide) (by decide) (by decide)
  have hne25 := os_path_join_suffix_ne d N.toLower ".clas.locals_def.abap" ".clas.xml"
      (by decide) (by decide) (by decide)
  have hne34 := os_path_join_suffix_ne d N.toLower ".clas.locals_imp.abap" ".clas.testclasses.abap"
      (by decide) (by decide) (by decide)
  have hne35 := os_path_join_suffix_ne d N.toLower ".clas.locals_imp.abap" ".clas.xml"
      (by decide) (by decide) (by decide)
  have hne45 := os_path_join_suffix_ne d N.toLower ".clas.testclasses.abap" ".clas.xml"
      (by decide) (by decide) (by decide)
  have heff : checkout_class conn N (some d) w =
      ({ w with fs := (((((w.fs.writeFile (os_path_join d (N.toLower ++ ".clas.abap"))
            (FileContent.text t1)).writeFile
          (os_path_join d (N.toLower ++ ".clas.locals_def.abap"))
            (FileContent.text t2)).writeFile
          (os_path_join d (N.toLower ++ ".clas.locals_imp.abap"))
            (FileContent.text t3)).writeFile
          (os_path_join d (N.toLower ++ ".clas.testclasses.abap"))
            (FileContent.text t4)).writeFile
          (os_path_join d (N.toLower ++ ".clas.xml"))
            (FileContent.vseoclassXml (build_class_abap_attributes clas))) }, none) := by
    simp only [checkout_class, hc, download_abap_source, dump_attributes_to_file, seqRun,
      h1, h2, h3, h4, hk1, hk2, hk3, hk4, hk5]
  refine ⟨_, heff, ?_, ?_, ?_, ?_, ?_, ?_⟩
  · show FS.lookupFile _ _ = _
    rw [lookupFile_writeFile, if_neg hne15, lookupFile_writeFile, if_neg hne14,
      lookupFile_writeFile, if_neg hne13, lookupFile_writeFile, if_neg hne12,
      lookupFile_writeFile, if_pos rfl]
  · show FS.lookupFile _ _ = _
    rw [lookupFile_writeFile, if_neg hne25, lookupFile_writeFile, if_neg hne24,
      lookupFile_writeFile, if_neg hne23, lookupFile_writeFile, if_pos rfl]
  · show FS.lookupFile _ _ = _
    rw [lookupFile_writeFile, if_neg hne35, lookupFile_writeFile, if_neg hne34,
      lookupFile_writeFile, if_pos rfl]
  · show FS.lookupFile _ _ = _
    rw [lookupFile_writeFile, if_neg hne45, lookupFile_writeFile, if_pos rfl]
  · show FS.lookupFile _ _ = _
    rw [lookupFile_writeFile, if_pos rfl]
  · intro p hp1 hp2 hp3 hp4 hp5
    show FS.lookupFile _ _ = _
    rw [lookupFile_writeFile, if_neg hp5, lookupFile_writeFile, if_neg hp4,
      lookupFile_writeFile, if_neg hp3, lookupFile_writeFile, if_neg hp2,
      lookupFile_writeFile, if_neg hp1]

/-- C6: with the remote object present, a class checkout writes exactly the
five files `n.clas.abap`, `n.clas.locals_def.abap`, `n.clas.locals_imp.abap`,
`n.clas.testclasses.abap`, `n.clas.xml` (n the lower-cased name) into the
destination directory, a program checkout writes exactly `n.prog.abap`, and an
interface checkout writes exactly `n.intf.abap`; no other file changes. -/
theorem claim_C6_files_per_object_kind (conn : Connection) (N d : String) (w : World)
    (clas : ClassData) (t1 t2 t3 t4 tp ti : String)
    (hc : conn.fetchClass N = Except.ok clas)
    (h1 : clas.text = Except.ok t1) (h2 : clas.definitions = Except.ok t2)
    (h3 : clas.implementations = Except.ok t3) (h4 : clas.test_classes = Except.ok t4)
    (hp : conn.fetchProgramText N = Except.ok tp)
    (hi : conn.fetchInterfaceText N = Except.ok ti) :
    (∃ wc, checkout_class conn N (some d) w = (wc, none) ∧
      wc.fs.lookupFile (os_path_join d (N.toLower ++ ".clas.abap")) =
        some (FileContent.text t1) ∧
      wc.fs.lookupFile (os_path_join d (N.toLower ++ ".clas.locals_def.abap")) =
        some (FileContent.text t2) ∧
      wc.fs.lookupFile (os_path_join d (N.toLower ++ ".clas.locals_imp.abap")) =
        some (FileContent.text t3) ∧
      wc.fs.lookupFile (os_path_join d (N.toLower ++ ".clas.testclasses.abap")) =
        some (FileContent.text t4) ∧
      wc.fs.lookupFile (os_path_join d (N.toLower ++ ".clas.xml")) =
        some (FileContent.vseoclassXml (build_class_abap_attributes clas)) ∧
      ∀ p, p ≠ os_path_join d (N.toLower ++ ".clas.abap") →
        p ≠ os_path_join d (N.toLower ++ ".clas.locals_def.abap") →
        p ≠ os_path_join d (N.toLower ++ ".clas.locals_imp.abap") →
        p ≠ os_path_join d (N.toLower ++ ".clas.testclasses.abap") →
        p ≠ os_path_join d (N.toLower ++ ".clas.xml") →
        wc.fs.lookupFile p = w.fs.lookupFile p) ∧
    (∃ wp, checkout_program conn N (some d) w = (wp, none) ∧
      wp.fs.lookupFile (os_path_join d (N.toLower ++ ".prog.abap")) =
        some (FileContent.text tp) ∧
      ∀ p, p ≠ os_path_join d (N.toLower ++ ".prog.abap") →
        wp.fs.lookupFile p = w.fs.lookupFile p) ∧
    (∃ wi, checkout_interface conn N (some d) w = (wi, none) ∧
      wi.fs.lookupFile (os_path_join d (N.toLower ++ ".intf.abap")) =
        some (FileContent.text ti) ∧
      ∀ p, p ≠ os_path_join d (N.toLower ++ ".intf.abap") →
        wi.fs.lookupFile p = w.fs.lookupFile p) :=
  ⟨checkout_class_files conn N d w clas t1 t2 t3 t4 hc h1 h2 h3 h4,
   checkout_program_files conn N d w tp hp,
   checkout_interface_files conn N d w ti hi⟩

/-- C6 witness: the concrete total connection, class name `ZCL_X`. -/
theorem claim_C6_witness :
    total_conn.fetchClass "ZCL_X" = Except.ok
      { name := "ZCL_X", active := "active", master_language := "EN", description := "demo",
        modeled := false, fix_point_arithmetic := true,
        text := Except.ok "T", definitions := Except.ok "D",
        implementations := Except.ok "I", test_classes := Except.ok "U" } ∧
    total_conn.fetchProgramText "ZCL_X" = Except.ok "P" ∧
    total_conn.fetchInterfaceText "ZCL_X" = Except.ok "N" ∧
    ((∃ wc, checkout_class total_conn "ZCL_X" (some "dst") w0dst = (wc, none) ∧
      wc.fs.lookupFile (os_path_join "dst" ("ZCL_X".toLower ++ ".clas.abap")) =
        some (FileContent.text "T") ∧
      wc.fs.lookupFile (os_path_join "dst" ("ZCL_X".toLower ++ ".clas.locals_def.abap")) =
        some (FileContent.text "D") ∧
      wc.fs.lookupFile (os_path_join "dst" ("ZCL_X".toLower ++ ".clas.locals_imp.abap")) =
        some (FileContent.text "I") ∧
      wc.fs.lookupFile (os_path_join "dst" ("ZCL_X".toLower ++ ".clas.testclasses.abap")) =
        some (FileContent.text "U") ∧
      wc.fs.lookupFile (os_path_join "dst" ("ZCL_X".toLower ++ ".clas.xml")) =
        some (FileContent.vseoclassXml (build_class_abap_attributes
          { name := "ZCL_X", active := "active", master_language := "EN", description := "demo",
            modeled := false, fix_point_arithmetic := true,
            text := Except.ok "T", definitions := Except.ok "D",
            implementations := Except.ok "I", test_classes := Except.ok "U" })) ∧
      ∀ p, p ≠ os_path_join "dst" ("ZCL_X".toLower ++ ".clas.abap") →
        p ≠ os_path_join "dst" ("ZCL_X".toLower ++ ".clas.locals_def.abap") →
        p ≠ os_path_join "dst" ("ZCL_X".toLower ++ ".clas.locals_imp.abap") →
        p ≠ os_path_join "dst" ("ZCL_X".toLower ++ ".clas.testclasses.abap") →
        p ≠ os_path_join "dst" ("ZCL_X".toLower ++ ".clas.xml") →
        wc.fs.lookupFile p = w0dst.fs.lookupFile p) ∧
    (∃ wp, checkout_program total_conn "ZCL_X" (some "dst") w0dst = (wp, none) ∧
      wp.fs.lookupFile (os_path_join "dst" ("ZCL_X".toLower ++ ".prog.abap")) =
        some (FileContent.text "P") ∧
      ∀ p, p ≠ os_path_join "dst" ("ZCL_X".toLower ++ ".prog.abap") →
        wp.fs.lookupFile p = w0dst.fs.lookupFile p) ∧
    (∃ wi, checkout_interface total_conn "ZCL_X" (some "dst") w0dst = (wi, none) ∧
      wi.fs.lookupFile (os_path_join "dst" ("ZCL_X".toLower ++ ".intf.abap")) =
        some (FileContent.text "N") ∧
      ∀ p, p ≠ os_path_join "dst" ("ZCL_X".toLower ++ ".intf.abap") →
        wi.fs.lookupFile p = w0dst.fs.lookupFile p)) :=
  ⟨rfl, rfl, rfl,
    claim_C6_files_per_object_kind total_conn "ZCL_X" "dst" w0dst
      { name := "ZCL_X", active := "active", master_language := "EN", description := "demo",
        modeled := false, fix_point_arithmetic := true,
        text := Except.ok "T", definitions := Except.ok "D",
        implementations := Except.ok "I", test_classes := Except.ok "U" }
      "T" "D" "I" "U" "P" "N" rfl rfl rfl rfl rfl rfl rfl⟩

/-! ### Claim C9 -/

/-- C9: re-running a checkout into the destination left by a first run never
fails on the already-existing directory (no directory is created the second
time), every file the second run writes gets the second run's content
(overwriting same-named files of the first run), and files the second run does
not write are untouched. -/
theorem claim_C9_rerun_overwrites (conn conn2 : Connection) (hT : ConnTotal conn)
    (hT2 : ConnTotal conn2) (objs : List ObjectRef) (destdir : String) (w : World) :
    ∃ w1 w2, checkout_objects conn objs destdir w = (w1, none) ∧
      checkout_objects conn2 objs destdir w1 = (w2, none) ∧
      w2.fs.dirs = w1.fs.dirs ∧
      (∀ p c, List.lookup p (run_writes conn2 objs destdir) = some c →
        w2.fs.lookupFile p = some c) ∧
      (∀ p, List.lookup p (run_writes conn2 objs destdir) = none →
        w2.fs.lookupFile p = w1.fs.lookupFile p) := by
  obtain ⟨w1, he1, hd1, _, _⟩ := checkout_objects_total conn hT objs destdir w
  obtain ⟨w2, he2, hd2, _, hf2⟩ := checkout_objects_total conn2 hT2 objs destdir w1
  have hdir1 : w1.fs.isdir destdir = true := by
    rw [FS.isdir, hd1]
    by_cases h : w.fs.isdir destdir
    · rw [if_pos h]
      simpa [FS.isdir] using h
    · rw [if_neg h]
      simp
  refine ⟨w1, w2, he1, he2, ?_, ?_, ?_⟩
  · rw [hd2, if_pos hdir1]
  · intro p c hl
    rw [hf2 p, hl]
    rfl
  · intro p hl
    rw [hf2 p, hl]
    rfl

/-- A second total connection delivering different payloads, so that the
second run demonstrably overwrites the first run's files. -/
def total_conn2 : Connection :=
  { fetchClass := fun n => Except.ok
      { name := n, active := "inactive", master_language := "DE", description := "neu",
        modeled := true, fix_point_arithmetic := false,
        text := Except.ok "T2", definitions := Except.ok "D2",
        implementations := Except.ok "I2", test_classes := Except.ok "U2" },
    fetchProgramText := fun _ => Except.ok "P2",
    fetchInterfaceText := fun _ => Except.ok "N2" }

theorem total_conn2_total : ConnTotal total_conn2 :=
  ⟨fun n => ⟨_, rfl, ⟨"T2", rfl⟩, ⟨"D2", rfl⟩, ⟨"I2", rfl⟩, ⟨"U2", rfl⟩⟩,
   fun _ => ⟨"P2", rfl⟩, fun _ => ⟨"N2", rfl⟩⟩

theorem claim_C9_witness :
    ConnTotal total_conn ∧ ConnTotal total_conn2 ∧
    (∃ w1 w2, checkout_objects total_conn [ObjectRef.mk "PROG/P" "ZP"] "dst" w0dst =
        (w1, none) ∧
      checkout_objects total_conn2 [ObjectRef.mk "PROG/P" "ZP"] "dst" w1 = (w2, none) ∧
      w2.fs.dirs = w1.fs.dirs ∧
      (∀ p c, List.lookup p (run_writes total_conn2 [ObjectRef.mk "PROG/P" "ZP"] "dst") =
          some c → w2.fs.lookupFile p = some c) ∧
      (∀ p, List.lookup p (run_writes total_conn2 [ObjectRef.mk "PROG/P" "ZP"] "dst") = none →
        w2.fs.lookupFile p = w1.fs.lookupFile p)) :=
  ⟨total_conn_total, total_conn2_total,
    claim_C9_rerun_overwrites total_conn total_conn2 total_conn_total total_conn2_total
      [ObjectRef.mk "PROG/P" "ZP"] "dst" w0dst⟩

/-! ### Claim C8 -/

theorem make_repo_dir_spec (cwd : String) (args : Args) (w : World) :
    ∃ w1, make_repo_dir_for_package cwd args w =
        ((w1, none), os_path_abspath cwd (repo_dir_arg args)) ∧
      w1.fs.dirs = (if w.fs.isdir (os_path_abspath cwd (repo_dir_arg args)) then w.fs.dirs
        else os_path_abspath cwd (repo_dir_arg args) :: w.fs.dirs) ∧
      w1.fs.lookupFile (os_path_join (os_path_abspath cwd (repo_dir_arg args)) ".abapgit.xml") =
        some (FileContent.abapgitXml { STARTING_FOLDER := "/" ++ args.starting_folder ++ "/" }) ∧
      (∀ p, p ≠ os_path_join (os_path_abspath cwd (repo_dir_arg args)) ".abapgit.xml" →
        w1.fs.lookupFile p = w.fs.lookupFile p) ∧
      w1.stderrLines = w.stderrLines := by
  by_cases hd : w.fs.isdir (os_path_abspath cwd (repo_dir_arg args))
  · refine ⟨{ w with fs := (w.fs.writeFile
      (os_path_join (os_path_abspath cwd (repo_dir_arg args)) ".abapgit.xml")
      (FileContent.abapgitXml { STARTING_FOLDER := "/" ++ args.starting_folder ++ "/" })) },
      ?_, ?_, ?_, ?_, rfl⟩
    · simp only [make_repo_dir_for_package, hd, if_pos, DOT_ABAP_GIT.for_new_repo]
    · rw [if_pos hd]
      rfl
    · show FS.lookupFile _ _ = _
      rw [lookupFile_writeFile, if_pos rfl]
    · intro p hp
      show FS.lookupFile _ _ = _
      rw [lookupFile_writeFile, if_neg hp]
  · have hmem : os_path_abspath cwd (repo_dir_arg args) ∉ w.fs.dirs := by
      simpa [FS.isdir] using hd
    have hm : w.fs.makedirs (os_path_abspath cwd (repo_dir_arg args)) =
        Except.ok (FS.mk (os_path_abspath cwd (repo_dir_arg args) :: w.fs.dirs) w.fs.files) := by
      simp [FS.makedirs, hmem]
    refine ⟨{ w with fs := ((FS.mk (os_path_abspath cwd (repo_dir_arg args) :: w.fs.dirs)
        w.fs.files).writeFile
      (os_path_join (os_path_abspath cwd (repo_dir_arg args)) ".abapgit.xml")
      (FileContent.abapgitXml { STARTING_FOLDER := "/" ++ args.starting_folder ++ "/" })) },
      ?_, ?_, ?_, ?_, rfl⟩
    · simp only [make_repo_dir_for_package, hd, if_neg, hm, DOT_ABAP_GIT.for_new_repo]
      rfl
    · rw [if_neg hd]
      rfl
    · show FS.lookupFile _ _ = _
      rw [lookupFile_writeFile, if_pos rfl]
    · intro p hp
      show FS.lookupFile _ _ = _
      rw [lookupFile_writeFile, if_neg hp]
      rfl

/-- C8: repo initialization returns the resolved absolute root directory,
ensures it exists, writes exactly one file `.abapgit.xml` at its top level
whose recorded starting folder is the configured name wrapped in leading and
trailing path separators, and changes nothing else. -/
theorem claim_C8_repo_init (cwd : String) (args : Args) (w : World)
    (hcwd : startsWithSep cwd = true) :
    ∃ w1, make_repo_dir_for_package cwd args w =
        ((w1, none), os_path_abspath cwd (repo_dir_arg args)) ∧
      os_path_isabs (os_path_abspath cwd (repo_dir_arg args)) = true ∧
      os_path_abspath cwd (repo_dir_arg args) ∈ w1.fs.dirs ∧
      w1.fs.lookupFile (os_path_join (os_path_abspath cwd (repo_dir_arg args)) ".abapgit.xml") =
        some (FileContent.abapgitXml { STARTING_FOLDER := "/" ++ args.starting_folder ++ "/" }) ∧
      (∀ p, p ≠ os_path_join (os_path_abspath cwd (repo_dir_arg args)) ".abapgit.xml" →
        w1.fs.lookupFile p = w.fs.lookupFile p) ∧
      w1.stderrLines = w.stderrLines := by
  obtain ⟨w1, he, hdirs, hx, ho, hs⟩ := make_repo_dir_spec cwd args w
  refine ⟨w1, he, ?_, ?_, hx, ho, hs⟩
  · rw [os_path_isabs]
    exact startsWithSep_abspath cwd _ hcwd
  · rw [hdirs]
    by_cases h : w.fs.isdir (os_path_abspath cwd (repo_dir_arg args))
    · rw [if_pos h]
      simpa [FS.isdir] using h
    · rw [if_neg h]
      simp

/-- C8 witness: a fresh world, current directory `/home`, package `PKG`,
default starting folder `src`. -/
def wfresh : World := { fs := { dirs := [], files := [] }, stderrLines := [] }

/-- Concrete arguments for the package command. -/
def args0 : Args :=
  { name := "PKG", directory := none, starting_folder := "src", recursive := false }

theorem claim_C8_witness :
    startsWithSep "/home" = true ∧
    (∃ w1, make_repo_dir_for_package "/home" args0 wfresh =
        ((w1, none), os_path_abspath "/home" (repo_dir_arg args0)) ∧
      os_path_isabs (os_path_abspath "/home" (repo_dir_arg args0)) = true ∧
      os_path_abspath "/home" (repo_dir_arg args0) ∈ w1.fs.dirs ∧
      w1.fs.lookupFile
          (os_path_join (os_path_abspath "/home" (repo_dir_arg args0)) ".abapgit.xml") =
        some (FileContent.abapgitXml { STARTING_FOLDER := "/" ++ args0.starting_folder ++ "/" }) ∧
      (∀ p, p ≠ os_path_join (os_path_abspath "/home" (repo_dir_arg args0)) ".abapgit.xml" →
        w1.fs.lookupFile p = wfresh.fs.lookupFile p) ∧
      w1.stderrLines = wfresh.stderrLines) :=
  ⟨rfl, claim_C8_repo_init "/home" args0 wfresh rfl⟩

/-! ### Claim C4 -/

/-- The path-separator join of the spec (§4.4, §8): segments joined by the
separator. -/
def sep_join : List String → String
  | [] => ""
  | [s] => s
  | s :: rest => s ++ "/" ++ sep_join rest

/-- A well-formed package-name segment is non-empty and contains no path
separator. -/
abbrev cleanSegment (s : String) : Prop := s ≠ "" ∧ ∀ c ∈ s.data, c ≠ '/'

theorem startsWithSep_of_clean {s : String} (h : cleanSegment s) :
    startsWithSep s = false := by
  rw [startsWithSep]
  cases hh : s.data.head? with
  | none => simp
  | some c =>
    have hc : c ∈ s.data := List.mem_of_mem_head? (by rw [hh]; rfl)
    simp [h.2 c hc]

theorem endsWithSep_of_clean {s : String} (h : cleanSegment s) :
    endsWithSep s = false := by
  rw [endsWithSep]
  cases hh : s.data.getLast? with
  | none => simp
  | some c =>
    have hc : c ∈ s.data := List.mem_of_mem_getLast? (by rw [hh]; rfl)
    simp [h.2 c hc]

theorem data_ne_nil_of_ne_empty {s : String} (h : s ≠ "") : s.data ≠ [] := by
  intro hd
  apply h
  apply String.ext
  simp [hd]

theorem foldl_join_clean (rest : List String) : ∀ acc : String, acc ≠ "" →
    endsWithSep acc = false →
    (∀ s ∈ rest, cleanSegment s) →
    rest.foldl os_path_join acc = sep_join (acc :: rest) := by
  induction rest with
  | nil =>
    intro acc _ _ _
    rfl
  | cons s rest ih =>
    intro acc hacc hend hseg
    have hs := hseg s (List.mem_cons_self s rest)
    have hjoin : os_path_join acc s = acc ++ "/" ++ s := by
      unfold os_path_join
      rw [if_neg (by simp [startsWithSep_of_clean hs]), if_neg hacc,
        if_neg (by simp [hend])]
    have hne2 : acc ++ "/" ++ s ≠ "" := by
      intro h
      have hd := congrArg String.data h
      simp [String.data_append] at hd
    have hend2 : endsWithSep (acc ++ "/" ++ s) = false := by
      rw [endsWithSep, String.data_append, List.getLast?_append]
      cases hl : s.data.getLast? with
      | none =>
        exact absurd (List.getLast?_eq_none_iff.mp hl) (data_ne_nil_of_ne_empty hs.1)
      | some c =>
        have hc : c ∈ s.data := List.mem_of_mem_getLast? (by rw [hl]; rfl)
        simp [hl, hs.2 c hc]
    rw [List.foldl_cons, hjoin,
      ih (acc ++ "/" ++ s) hne2 hend2 (fun t ht => hseg t (List.mem_cons_of_mem s ht))]
    cases rest with
    | nil => rfl
    | cons r rs =>
      show sep_join ((acc ++ "/" ++ s) :: r :: rs) = sep_join (acc :: s :: r :: rs)
      simp [sep_join, String.append_assoc]

theorem os_path_join_list_clean (hier : List String) (hne : hier ≠ [])
    (hseg : ∀ s ∈ hier, cleanSegment s) :
    os_path_join_list hier = sep_join hier := by
  cases hier with
  | nil => cases hne rfl
  | cons s rest =>
    have hs := hseg s (List.mem_cons_self s rest)
    exact foldl_join_clean rest s hs.1 (endsWithSep_of_clean hs)
      (fun t ht => hseg t (List.mem_cons_of_mem s ht))

/-- C4: for a non-empty hierarchy of well-formed package names under an
absolute base source directory, the loop of `package` resolves the export
destination to `base/lowercase(segment)` for a one-segment path and to
`base/lowercase(sep-join of all segments)` for a longer path. -/
theorem claim_C4_destdir_resolution (cwd base : String) (hier : List String)
    (hbase : os_path_isabs base = true) (hne : hier ≠ [])
    (hseg : ∀ s ∈ hier, cleanSegment s) :
    package_destdir cwd base hier =
      if hier.length = 1 then os_path_join base hier.headI.toLower
      else os_path_join base ((sep_join hier).toLower) := by
  unfold package_destdir os_path_abspath
  rw [if_pos hbase]
  by_cases h1 : hier.length = 1
  · rw [if_pos h1, if_pos h1]
  · rw [if_neg h1, if_neg h1]
    have hlen : 0 < hier.length := List.length_pos.mpr hne
    have hgt : hier.length > 1 := by omega
    rw [if_pos hgt, os_path_join_list_clean hier hne hseg]

theorem claim_C4_witness :
    os_path_isabs "/repo/src" = true ∧ (["ROOT", "SUB"] : List String) ≠ [] ∧
    (∀ s ∈ (["ROOT", "SUB"] : List String), cleanSegment s) ∧
    package_destdir "/home" "/repo/src" ["ROOT", "SUB"] =
      if (["ROOT", "SUB"] : List String).length = 1 then
        os_path_join "/repo/src" (["ROOT", "SUB"] : List String).headI.toLower
      else os_path_join "/repo/src" ((sep_join ["ROOT", "SUB"]).toLower) :=
  ⟨rfl, by decide, by decide,
    claim_C4_destdir_resolution "/home" "/repo/src" ["ROOT", "SUB"] rfl (by decide) (by decide)⟩

/-! ### Claim C3 -/

/-- Straight-line processing of a list of package visits: every listed visit
is checked out once, in order, stopping only on an error. -/
def processVisits (cwd : String) (connection : Connection) (source_code_dir : String) :
    List PackageVisit → World → World × Option Err
  | [], w => (w, none)
  | v :: rest, w =>
    seqRun (checkout_objects connection v.objects
        (package_destdir cwd source_code_dir v.hier) w)
      (processVisits cwd connection source_code_dir rest)

theorem package_loop_eq_processVisits (cwd : String) (connection : Connection)
    (recursive : Bool) (scd : String) (visits : List PackageVisit) : ∀ w : World,
    package_loop cwd connection recursive scd visits w =
      processVisits cwd connection scd (if recursive then visits else visits.take 1) w := by
  induction visits with
  | nil =>
    intro w
    cases recursive <;> rfl
  | cons v rest ih =>
    intro w
    cases recursive with
    | false =>
      show package_loop cwd connection false scd (v :: rest) w =
        processVisits cwd connection scd [v] w
      simp only [package_loop, processVisits, seqRun]
      cases hres : checkout_objects connection v.objects
          (package_destdir cwd scd v.hier) w with
      | mk w1 r =>
        cases r with
        | none => rfl
        | some e => rfl
    | true =>
      simp only [package_loop, processVisits, seqRun, if_pos]
      cases hres : checkout_objects connection v.objects
          (package_destdir cwd scd v.hier) w with
      | mk w1 r =>
        cases r with
        | none => exact ih w1
        | some e => rfl

/-- C3: the `package` command processes exactly the first yielded visit (the
root package) when `--recursive` is off, and every yielded visit once, in
yielded order, when it is on; and the walker's first yielded visit is the root
package with its one-segment path. -/
theorem claim_C3_recursion_policy :
    (∀ (cwd : String) (connection : Connection) (args : Args) (visits : List PackageVisit)
      (w : World), ∃ w1 repo_dir,
        make_repo_dir_for_package cwd args w = ((w1, none), repo_dir) ∧
        package cwd connection args visits w =
          processVisits cwd connection (os_path_join repo_dir args.starting_folder)
            (if args.recursive then visits else visits.take 1) w1) ∧
    (∀ t : PkgTree, (walk t).take 1 =
      [{ hier := [t.rootName], subpackages := t.subNames, objects := t.rootObjects }]) := by
  constructor
  · intro cwd connection args visits w
    obtain ⟨w1, he, _, _, _, _⟩ := make_repo_dir_spec cwd args w
    refine ⟨w1, os_path_abspath cwd (repo_dir_arg args), he, ?_⟩
    unfold package
    rw [he]
    exact package_loop_eq_processVisits cwd connection args.recursive
      (os_path_join (os_path_abspath cwd (repo_dir_arg args)) args.starting_folder) visits w1
  · intro t
    cases t with
    | node name objs subs =>
      simp [walk, walkFrom, PkgTree.rootName, PkgTree.subNames, PkgTree.rootObjects]

end Sapcli
